import Mathlib

/-!
Verification of the automatic-messaging dispatch engine.

This file gives a shallow embedding, in Lean 4, of the parts of the
repository that the checked claims talk about:

* the message data model (internal/model/message.go),
* the dispatcher loop Sender.ProcessBatch (internal/service),
* the response handling of WebhookClient.Send (internal/client),
* the Postgres repository ClaimPending / ListSent (internal/repo),
* the scheduler lifecycle (internal/scheduler),
* the onSent persistence hook wired in cmd/main.go,
* configuration loading (internal/config/config.go),
* the list-sent HTTP handler (internal/api).

Pure Go functions become Lean functions; stateful code is embedded as
explicit state passing, with event traces recording the externally
visible calls (webhook invocations, hook invocations, transaction
boundaries).  Go strings are modelled as Lean strings, i.e. sequences of
unicode scalar values, so `utf8.RuneCountInString` becomes
`String.length`.  Go `int` / `int64` are modelled as unbounded `Int`
(overflow never matters at the checked claims), and timestamps as `Int`.
-/

namespace AutoMsg

/-! ## Data model (internal/model/message.go) -/

/-- Status of a message row, from `model.Status`. -/
inductive Status
  | pending
  | processing
  | sent
  | failed
deriving DecidableEq, Repr

/-- A message row, from `model.Message`.  Timestamps are abstract `Int`
instants; optional columns are `Option`. -/
structure Message where
  id : Int
  recipientPhone : String
  content : String
  status : Status
  attemptCount : Int
  lastError : Option String
  sentAt : Option Int
  remoteMessageId : Option String
  createdAt : Int
  updatedAt : Int
deriving DecidableEq, Repr

/-! ## Dispatcher (internal/service sender.go) -/

/-- Abstract result of one `client.Send(phone, content)` call: either a
remote message id or an error text.  `Sender.ProcessBatch` is
parametrised over this, mirroring the `SendClient` interface. -/
def SendFn : Type := String → String → Except String String

/-- Externally visible actions taken by the dispatcher loop body:
a webhook `Send` call, an `onSent` hook call, an `onFailed` hook call. -/
inductive SendEvent
  | call (phone : String) (content : String)
  | onSent (id : Int) (remoteId : String)
  | onFailed (id : Int) (reason : String)
deriving DecidableEq, Repr

/-- Counters plus the event trace produced by `ProcessBatch`. -/
structure BatchResult where
  sent : Nat
  failed : Nat
  events : List SendEvent
deriving DecidableEq, Repr

/-- One iteration of the loop body of `Sender.ProcessBatch`:
length check first (`utf8.RuneCountInString(m.Content) > s.contentMax`),
then the webhook call, then the outcome hook. -/
def msgStep (contentMax : Int) (send : SendFn) (m : Message) : BatchResult :=
  if (m.content.length : Int) > contentMax then
    { sent := 0, failed := 1,
      events := [SendEvent.onFailed m.id
        ("content exceeds " ++ toString contentMax ++ " chars")] }
  else
    match send m.recipientPhone m.content with
    | Except.error e =>
        { sent := 0, failed := 1,
          events := [SendEvent.call m.recipientPhone m.content,
            SendEvent.onFailed m.id e] }
    | Except.ok rid =>
        { sent := 1, failed := 0,
          events := [SendEvent.call m.recipientPhone m.content,
            SendEvent.onSent m.id rid] }

/-- `Sender.ProcessBatch`: fold the loop body over the batch in order,
accumulating the `sent` / `failed` counters and the event trace. -/
def processBatch (contentMax : Int) (send : SendFn) : List Message → BatchResult
  | [] => { sent := 0, failed := 0, events := [] }
  | m :: rest =>
      let r := msgStep contentMax send m
      let rs := processBatch contentMax send rest
      { sent := r.sent + rs.sent, failed := r.failed + rs.failed,
        events := r.events ++ rs.events }

/-- A webhook stub that always accepts, used to instantiate theorems at
concrete inputs. -/
def sendOkStub : SendFn := fun _ _ => Except.ok "r-1"

/-- A one-code-point message used to instantiate theorems. -/
def exampleShort : Message :=
  { id := 1, recipientPhone := "+361", content := "a", status := Status.processing,
    attemptCount := 0, lastError := none, sentAt := none, remoteMessageId := none,
    createdAt := 0, updatedAt := 0 }

/-- A two-code-point message used to instantiate theorems. -/
def exampleLong : Message :=
  { id := 2, recipientPhone := "+362", content := "ab", status := Status.processing,
    attemptCount := 0, lastError := none, sentAt := none, remoteMessageId := none,
    createdAt := 0, updatedAt := 0 }

/-! ## Webhook client (internal/client webhook.go)

`WebhookClient.Send` marshals the request, performs the POST, reads the
whole body, and then branches on the response.  The network round trip
is external; the embedded part is the response handling, parametrised by
the HTTP response and by `json.Unmarshal` into `sendResponse` (modelled
as an abstract decoder `String → Except String SendResponse`, standard
library behaviour that is not part of this repository). -/

/-- An HTTP response as seen by `WebhookClient.Send` after reading the
body: status code plus the raw body text. -/
structure HttpResponse where
  statusCode : Int
  body : String
deriving DecidableEq, Repr

/-- The `sendResponse` JSON shape `{message, messageId}`; a field absent
from the body decodes to `""`, as in Go. -/
structure SendResponse where
  message : String
  messageId : String
deriving DecidableEq, Repr

/-- Go `%q` escaping of one character (strconv.Quote): the short escape
sequences, literal printable ASCII, and a `\u`-style escape for the
rest. -/
def goQuoteChar (c : Char) : List Char :=
  if c = '"' then ['\\', '"']
  else if c = '\\' then ['\\', '\\']
  else if c = '\n' then ['\\', 'n']
  else if c = '\t' then ['\\', 't']
  else if c = '\r' then ['\\', 'r']
  else if 32 ≤ c.toNat ∧ c.toNat < 127 then [c]
  else '\\' :: 'u' :: Nat.toDigits 16 c.toNat

/-- Go `%q` on a string: the escaped characters wrapped in double
quotes. -/
def goQuote (s : String) : String :=
  ⟨'"' :: (s.data.flatMap goQuoteChar ++ ['"'])⟩

/-- A character that `%q` prints literally. -/
def plainChar (c : Char) : Prop :=
  32 ≤ c.toNat ∧ c.toNat < 127 ∧ c ≠ '"' ∧ c ≠ '\\'

instance (c : Char) : Decidable (plainChar c) := by
  unfold plainChar; infer_instance

/-- The response-handling tail of `WebhookClient.Send`: non-202 is an
error carrying status and quoted body; then the body is decoded and the
`messageId` field checked for emptiness. -/
def webhookHandleResponse (decode : String → Except String SendResponse)
    (resp : HttpResponse) : Except String String :=
  if resp.statusCode ≠ 202 then
    Except.error ("unexpected status code: " ++ toString resp.statusCode ++
      " body=" ++ goQuote resp.body)
  else
    match decode resp.body with
    | Except.error je =>
        Except.error ("failed to decode json: " ++ je ++
          " body=" ++ goQuote resp.body)
    | Except.ok sr =>
        if sr.messageId = "" then
          Except.error ("missing messageId in response body=" ++ goQuote resp.body)
        else
          Except.ok sr.messageId

/-- A decoder stub used to instantiate theorems: accepts the literal
body of test scenario 4 (`202` with no `messageId`) and one well-formed
body, rejects anything else. -/
def decodeStub : String → Except String SendResponse := fun b =>
  if b = "\x7b\x22message\x22:\x22Accepted\x22\x7d" then
    Except.ok { message := "Accepted", messageId := "" }
  else if b = "\x7b\x22message\x22:\x22Accepted\x22,\x22messageId\x22:\x22abc-123\x22\x7d" then
    Except.ok { message := "Accepted", messageId := "abc-123" }
  else
    Except.error "invalid character"

/-! ## Message repository (internal/repo postgres.go)

The two read paths are embedded over an explicit table state
`List Message` (rows in insertion order).  SQL ordering becomes a stable
insertion sort, so `ORDER BY created_at ASC` ties are broken by
insertion order; transaction boundaries and row updates are recorded as
events. -/

/-- `ORDER BY created_at ASC` comparison. -/
def createdOrder : Message → Message → Prop := fun a b => a.createdAt ≤ b.createdAt

instance : DecidableRel createdOrder := fun a b => Int.decLe a.createdAt b.createdAt

instance : IsTotal Message createdOrder := ⟨fun a b => Int.le_total a.createdAt b.createdAt⟩

instance : IsTrans Message createdOrder := ⟨fun _ _ _ hab hbc => le_trans hab hbc⟩

/-- `ORDER BY sent_at DESC` comparison at SQL level: descending on
`sent_at`, NULLs first (the Postgres default for DESC). -/
def optTimeGe (x y : Option Int) : Prop :=
  match x, y with
  | none, _ => True
  | some _, none => False
  | some a, some b => b ≤ a

instance (x y : Option Int) : Decidable (optTimeGe x y) :=
  match x, y with
  | none, _ => isTrue trivial
  | some _, none => isFalse (fun h => h)
  | some a, some b => Int.decLe b a

/-- Row comparison used by `ListSent`. -/
def sentOrder : Message → Message → Prop := fun a b => optTimeGe a.sentAt b.sentAt

instance : DecidableRel sentOrder := fun x y =>
  inferInstanceAs (Decidable (optTimeGe x.sentAt y.sentAt))

instance : IsTotal Message sentOrder :=
  ⟨fun a b => by
    show optTimeGe a.sentAt b.sentAt ∨ optTimeGe b.sentAt a.sentAt
    rcases a.sentAt with _ | x <;> rcases b.sentAt with _ | y <;>
      first
      | (simp [optTimeGe]; omega)
      | simp [optTimeGe]⟩

instance : IsTrans Message sentOrder :=
  ⟨fun a b c hab hbc => by
    have h1 : optTimeGe a.sentAt b.sentAt := hab
    have h2 : optTimeGe b.sentAt c.sentAt := hbc
    show optTimeGe a.sentAt c.sentAt
    revert h1 h2
    rcases a.sentAt with _ | x <;> rcases b.sentAt with _ | y <;>
      rcases c.sentAt with _ | z <;>
      first
      | (simp [optTimeGe]; omega)
      | simp [optTimeGe]⟩

/-- Database-side actions recorded by the repository embedding. -/
inductive RepoEvent
  | txBegin
  | rowUpdate (id : Int)
  | txCommit
deriving DecidableEq, Repr

/-- Result of a `ClaimPending` call: the returned value, the table
afterwards, and the recorded database actions. -/
structure ClaimResult where
  result : Except String (List Message)
  db : List Message
  events : List RepoEvent
deriving Repr

/-- The per-row `UPDATE ... SET status = processing, updated_at = now`. -/
def claimUpdate (now : Int) (m : Message) : Message :=
  { m with status := Status.processing, updatedAt := now }

/-- `PostgresMessageRepo.ClaimPending`: reject non-positive limits before
any transaction; otherwise select up to `limit` pending rows in FIFO
order inside a transaction, flip them to `processing`, commit, and
return them with their post-update fields. -/
def claimPending (db : List Message) (now : Int) (lim : Int) : ClaimResult :=
  if lim ≤ 0 then
    { result := Except.error "limit must be > 0", db := db, events := [] }
  else
    let sel := (List.insertionSort createdOrder
      (db.filter (fun m => m.status == Status.pending))).take lim.toNat
    if sel.isEmpty then
      { result := Except.ok [], db := db,
        events := [RepoEvent.txBegin, RepoEvent.txCommit] }
    else
      let ids := sel.map (fun m => m.id)
      { result := Except.ok (sel.map (claimUpdate now)),
        db := db.map (fun m => if ids.contains m.id then claimUpdate now m else m),
        events := [RepoEvent.txBegin] ++ ids.map RepoEvent.rowUpdate ++
          [RepoEvent.txCommit] }

/-- The SQL query behind `ListSent`:
`WHERE status = sent ORDER BY sent_at DESC LIMIT lim OFFSET off`. -/
def querySent (db : List Message) (lim off : Int) : List Message :=
  ((List.insertionSort sentOrder
    (db.filter (fun m => m.status == Status.sent))).drop off.toNat).take lim.toNat

/-- `PostgresMessageRepo.ListSent`: clamp the arguments
(`limit <= 0` becomes 50, `offset < 0` becomes 0), then run the query. -/
def listSent (db : List Message) (lim off : Int) : List Message :=
  let l := if lim ≤ 0 then 50 else lim
  let o := if off < 0 then 0 else off
  querySent db l o

/-- A small concrete table used to instantiate theorems: one pending row
and two sent rows. -/
def exampleDb : List Message :=
  [ { id := 1, recipientPhone := "+3611", content := "a", status := Status.pending,
      attemptCount := 0, lastError := none, sentAt := none, remoteMessageId := none,
      createdAt := 1, updatedAt := 1 },
    { id := 2, recipientPhone := "+3622", content := "b", status := Status.sent,
      attemptCount := 0, lastError := none, sentAt := some 10,
      remoteMessageId := some "r-2", createdAt := 2, updatedAt := 10 },
    { id := 3, recipientPhone := "+3633", content := "c", status := Status.sent,
      attemptCount := 0, lastError := none, sentAt := some 20,
      remoteMessageId := some "r-3", createdAt := 3, updatedAt := 20 } ]

/-! ## Scheduler lifecycle (internal/scheduler scheduler.go)

`Start` / `Stop` are serialized by a mutex, so their effect is the
sequential state machine below; `liveWorkers` counts background workers
that have been spawned and not yet joined, and `spawnCount` counts
spawns, so that the one-worker property is visible.  `Stop` joins the
worker (`<-s.done`) before clearing the running flag. -/

/-- The mutable lifecycle state of a `Scheduler`. -/
structure GoScheduler where
  running : Bool
  liveWorkers : Nat
  spawnCount : Nat
deriving DecidableEq, Repr

/-- A scheduler as returned by `New`: not running, no worker. -/
def schedInit : GoScheduler := { running := false, liveWorkers := 0, spawnCount := 0 }

/-- `Scheduler.Start`: no-op returning `false` when already running;
otherwise set the flag, spawn the tick worker, return `true`. -/
def startSched (s : GoScheduler) : Bool × GoScheduler :=
  if s.running then (false, s)
  else
    (true,
      { running := true, liveWorkers := s.liveWorkers + 1,
        spawnCount := s.spawnCount + 1 })

/-- `Scheduler.Stop`: no-op returning `false` when not running;
otherwise cancel, join the worker, clear the flag, return `true`. -/
def stopSched (s : GoScheduler) : Bool × GoScheduler :=
  if s.running then (true, { s with running := false, liveWorkers := s.liveWorkers - 1 })
  else (false, s)

/-- `Scheduler.IsRunning`: read of the lifecycle flag. -/
def isRunning (s : GoScheduler) : Bool := s.running

/-! ## Scheduler temporal model (for the after-Stop property)

A labelled transition system refining the lifecycle with the worker
goroutine: the worker may start a tick whenever it is alive (even after
cancellation, since the `select` may pick the ticker), exits only once
cancelled and not mid-tick, and `Stop` returns only once the worker has
exited (`<-s.done`). -/

/-- Phase of the background worker goroutine. -/
inductive WorkerPhase
  | noWorker
  | alive (cancelled : Bool) (inTick : Bool)
deriving DecidableEq, Repr

/-- Interleaved state of the scheduler and its worker. -/
structure SchedulerLTS where
  running : Bool
  phase : WorkerPhase
  stopPending : Bool
deriving DecidableEq, Repr

/-- Observable transitions of the scheduler system. -/
inductive SchedLabel
  | startTrue
  | startFalse
  | stopBegin
  | stopReturn
  | stopFalse
  | tickStart
  | tickEnd
  | workerExit
deriving DecidableEq, Repr

/-- Small-step semantics of the scheduler system.  `stopBegin` is the
cancel inside `Stop` (mutex acquired, token cancelled); `stopReturn` is
`Stop` returning `true`, which requires the worker to have exited. -/
inductive SchedStep : SchedulerLTS → SchedLabel → SchedulerLTS → Prop
  | startTrue (s : SchedulerLTS) :
      s.running = false → s.stopPending = false →
      SchedStep s SchedLabel.startTrue
        { running := true, phase := WorkerPhase.alive false false, stopPending := false }
  | startFalse (s : SchedulerLTS) :
      s.running = true → s.stopPending = false →
      SchedStep s SchedLabel.startFalse s
  | stopFalse (s : SchedulerLTS) :
      s.running = false → s.stopPending = false →
      SchedStep s SchedLabel.stopFalse s
  | stopBegin (s : SchedulerLTS) (c t : Bool) :
      s.running = true → s.stopPending = false →
      s.phase = WorkerPhase.alive c t →
      SchedStep s SchedLabel.stopBegin
        { s with phase := WorkerPhase.alive true t, stopPending := true }
  | stopReturn (s : SchedulerLTS) :
      s.stopPending = true → s.phase = WorkerPhase.noWorker →
      SchedStep s SchedLabel.stopReturn
        { running := false, phase := WorkerPhase.noWorker, stopPending := false }
  | tickStart (s : SchedulerLTS) (c : Bool) :
      s.phase = WorkerPhase.alive c false →
      SchedStep s SchedLabel.tickStart { s with phase := WorkerPhase.alive c true }
  | tickEnd (s : SchedulerLTS) (c : Bool) :
      s.phase = WorkerPhase.alive c true →
      SchedStep s SchedLabel.tickEnd { s with phase := WorkerPhase.alive c false }
  | workerExit (s : SchedulerLTS) :
      s.phase = WorkerPhase.alive true false →
      SchedStep s SchedLabel.workerExit { s with phase := WorkerPhase.noWorker }

/-- Finite executions of the scheduler system, as label lists. -/
inductive SchedTrace : SchedulerLTS → List SchedLabel → SchedulerLTS → Prop
  | nil (s : SchedulerLTS) : SchedTrace s [] s
  | cons (s : SchedulerLTS) (l : SchedLabel) (s2 : SchedulerLTS)
      (t : List SchedLabel) (s3 : SchedulerLTS) :
      SchedStep s l s2 → SchedTrace s2 t s3 → SchedTrace s (l :: t) s3

/-! ## Dispatcher outcome hooks (cmd main.go, buildSender)

The `onSent` hook runs `MarkSent` first and returns its error on
failure; on success it attempts the cache write (when a cache is
configured) and swallows any cache error.  The outcomes of the two
external calls are parameters (`none` means success). -/

/-- Persistence-side calls made by the `onSent` hook, in order. -/
inductive HookEvent
  | markSentCall (id : Int) (remoteId : String)
  | storeSentCall (id : Int) (remoteId : String)
deriving DecidableEq, Repr

/-- `PostgresMessageRepo.MarkSent`: set `status = sent`, `sent_at`,
`remote_message_id` and `updated_at` on the matching row. -/
def markSentDb (db : List Message) (now : Int) (id : Int) (rid : String) : List Message :=
  db.map (fun m =>
    if m.id = id then
      { m with
          status := Status.sent, sentAt := some now,
          remoteMessageId := some rid, updatedAt := now }
    else m)

/-- `RedisCache.StoreSent` key `msg:<id>`. -/
def cacheKey (id : Int) : String := "msg:" ++ toString id

/-- The cache contents after a successful `StoreSent`: last write wins
for the key. -/
def storeSentCache (cache : List (String × String × Int)) (id : Int) (rid : String)
    (now : Int) : List (String × String × Int) :=
  (cacheKey id, rid, now) :: cache.filter (fun e => e.1 != cacheKey id)

/-- Result of one `onSent` hook invocation. -/
structure HookResult where
  out : Except String Unit
  db : List Message
  cache : List (String × String × Int)
  events : List HookEvent
deriving Repr

/-- The `onSent` hook built by `buildSender`. -/
def onSentHook (markSentErr : Option String) (cacheEnabled : Bool)
    (storeErr : Option String) (now : Int) (db : List Message)
    (cache : List (String × String × Int)) (id : Int) (rid : String) : HookResult :=
  match markSentErr with
  | some e =>
      { out := Except.error e, db := db, cache := cache,
        events := [HookEvent.markSentCall id rid] }
  | none =>
      let db2 := markSentDb db now id rid
      if cacheEnabled then
        match storeErr with
        | some _ =>
            { out := Except.ok (), db := db2, cache := cache,
              events := [HookEvent.markSentCall id rid,
                HookEvent.storeSentCall id rid] }
        | none =>
            { out := Except.ok (), db := db2,
              cache := storeSentCache cache id rid now,
              events := [HookEvent.markSentCall id rid,
                HookEvent.storeSentCall id rid] }
      else
        { out := Except.ok (), db := db2, cache := cache,
          events := [HookEvent.markSentCall id rid] }

/-! ## Configuration (internal/config config.go) -/

/-- The process environment as read through `os.Getenv`: unset variables
read as `""`. -/
def Env : Type := String → String

/-- Decimal digit run to number; rejects empty or non-digit input. -/
def digitsToNat (cs : List Char) : Option Nat :=
  if cs.isEmpty then none
  else if cs.all (fun c => c.isDigit) then
    some (cs.foldl (fun acc c => acc * 10 + (c.toNat - 48)) 0)
  else none

/-- Go `strconv.Atoi`: optional sign then decimal digits.  (The int64
range check is not modelled; no checked claim depends on it.) -/
def atoi (s : String) : Option Int :=
  match s.data with
  | '+' :: ds => (digitsToNat ds).map (fun n => (n : Int))
  | '-' :: ds => (digitsToNat ds).map (fun n => -(n : Int))
  | ds => (digitsToNat ds).map (fun n => (n : Int))

/-- `getEnv`: the variable's value, or the default when unset. -/
def getEnvDef (env : Env) (key defVal : String) : String :=
  if env key = "" then defVal else env key

/-- `requireEnv`: error for unset required variables. -/
def requireEnv (env : Env) (key : String) : Except String String :=
  if env key = "" then Except.error ("missing required env var: " ++ key)
  else Except.ok (env key)

/-- `getEnvInt`: default when unset, parse error otherwise
(`"invalid int for env %s: %q"`). -/
def getEnvInt (env : Env) (key : String) (defVal : Int) : Except String Int :=
  if env key = "" then Except.ok defVal
  else
    match atoi (env key) with
    | none => Except.error ("invalid int for env " ++ key ++ ": " ++ goQuote (env key))
    | some i => Except.ok i

/-- Redis section of the configuration. -/
structure RedisConfig where
  enabled : Bool
  address : String
  password : String
  db : Int
  ttl : Int
deriving DecidableEq, Repr

/-- `loadRedisConfig`: disabled (zero) config when `REDIS_ADDR` is
unset; otherwise parse `REDIS_DB` and `REDIS_TTL_SECONDS`. -/
def loadRedisConfig (env : Env) : Except String RedisConfig :=
  if env "REDIS_ADDR" = "" then
    Except.ok { enabled := false, address := "", password := "", db := 0, ttl := 0 }
  else
    match getEnvInt env "REDIS_DB" 0 with
    | Except.error e => Except.error e
    | Except.ok dbv =>
        match getEnvInt env "REDIS_TTL_SECONDS" 86400 with
        | Except.error e => Except.error e
        | Except.ok ttlSeconds =>
            Except.ok
              { enabled := true, address := env "REDIS_ADDR",
                password := env "REDIS_PASSWORD", db := dbv,
                ttl := ttlSeconds * 1000000000 }

/-- Scheduler section; `interval` is a `time.Duration` in nanoseconds. -/
structure SchedulerConfig where
  interval : Int
  batchSize : Int
deriving DecidableEq, Repr

/-- Webhook section. -/
structure WebhookConfig where
  url : String
  contentMax : Int
deriving DecidableEq, Repr

/-- The full configuration. -/
structure Config where
  serverAddress : String
  postgresUrl : String
  redis : RedisConfig
  scheduler : SchedulerConfig
  webhook : WebhookConfig
deriving DecidableEq, Repr

/-- `validate`: collect the non-positivity errors in source order. -/
def validate (cfg : Config) : List String :=
  (if cfg.scheduler.batchSize ≤ 0 then ["SCHED_BATCH_SIZE must be > 0"] else []) ++
  (if cfg.scheduler.interval ≤ 0 then ["SCHED_INTERVAL_SECONDS must be > 0"] else []) ++
  (if cfg.webhook.contentMax ≤ 0 then ["CONTENT_MAX must be > 0"] else [])

/-- The message text of `errors.Join`: messages separated by newlines. -/
def joinedText : List String → String
  | [] => ""
  | [e] => e
  | e :: rest => e ++ "\n" ++ joinedText rest

/-- `joinErrors`: `none` for an empty error list. -/
def joinErrors (errs : List String) : Option String :=
  if errs.isEmpty then none else some (joinedText errs)

/-- `config.LoadAll`: required variables, the three integer variables
with their defaults, the Redis section, then validation. -/
def loadAll (env : Env) : Except String Config :=
  match requireEnv env "POSTGRES_URL" with
  | Except.error e => Except.error e
  | Except.ok pgUrl =>
  match requireEnv env "WEBHOOK_URL" with
  | Except.error e => Except.error e
  | Except.ok webhookUrl =>
  match getEnvInt env "CONTENT_MAX" 160 with
  | Except.error e => Except.error e
  | Except.ok contentMax =>
  match getEnvInt env "SCHED_INTERVAL_SECONDS" 120 with
  | Except.error e => Except.error e
  | Except.ok intervalSeconds =>
  match getEnvInt env "SCHED_BATCH_SIZE" 2 with
  | Except.error e => Except.error e
  | Except.ok batchSize =>
  match loadRedisConfig env with
  | Except.error e => Except.error e
  | Except.ok redisCfg =>
  let cfg : Config :=
    { serverAddress := getEnvDef env "SERVER_ADDRESS" ":8080",
      postgresUrl := pgUrl,
      redis := redisCfg,
      scheduler := { interval := intervalSeconds * 1000000000, batchSize := batchSize },
      webhook := { url := webhookUrl, contentMax := contentMax } }
  match joinErrors (validate cfg) with
  | some e => Except.error e
  | none => Except.ok cfg

/-- Example environment: required variables set, `CONTENT_MAX` not an
integer. -/
def envInvalidInt : Env := fun k =>
  if k = "POSTGRES_URL" then "postgres://x"
  else if k = "WEBHOOK_URL" then "http://wh"
  else if k = "CONTENT_MAX" then "abc"
  else ""

/-- Example environment: required variables set, `CONTENT_MAX` zero. -/
def envNonPositive : Env := fun k =>
  if k = "POSTGRES_URL" then "postgres://x"
  else if k = "WEBHOOK_URL" then "http://wh"
  else if k = "CONTENT_MAX" then "0"
  else ""

/-- Example environment: only the required variables set. -/
def envDefaults : Env := fun k =>
  if k = "POSTGRES_URL" then "postgres://x"
  else if k = "WEBHOOK_URL" then "http://wh"
  else ""

/-- The configuration value assembled by `LoadAll` from the parsed
pieces (shorthand used in proofs). -/
def mkConfig (env : Env) (r : RedisConfig) (c i b : Int) : Config :=
  { serverAddress := getEnvDef env "SERVER_ADDRESS" ":8080",
    postgresUrl := env "POSTGRES_URL",
    redis := r,
    scheduler := { interval := i * 1000000000, batchSize := b },
    webhook := { url := env "WEBHOOK_URL", contentMax := c } }

/-! ## List-sent HTTP handler (internal/api handlers.go) -/

/-- The handler's `parseInt`: empty or unparsable query values fall back
to the default, every parsed value (negative included) passes through. -/
def parseIntQuery (raw : String) (defVal : Int) : Int :=
  if raw = "" then defVal
  else
    match atoi raw with
    | none => defVal
    | some v => v

/-- `Handler.ListSentMessages`: parse `limit` (default 50) and `offset`
(default 0), call the repository, answer 500 with the error on store
failure and 200 with the items otherwise.  The store outcome is a
parameter (`none` means success). -/
def listSentHandler (storeErr : Option String) (db : List Message)
    (limitRaw offsetRaw : String) : Int × Except String (List Message) :=
  let lim := parseIntQuery limitRaw 50
  let off := parseIntQuery offsetRaw 0
  match storeErr with
  | some e => (500, Except.error e)
  | none => (200, Except.ok (listSent db lim off))

/-! ## Theorems -/

theorem processBatch_sent_append (contentMax : Int) (send : SendFn)
    (xs ys : List Message) :
    (processBatch contentMax send (xs ++ ys)).sent =
      (processBatch contentMax send xs).sent + (processBatch contentMax send ys).sent := by
  induction xs with
  | nil => simp [processBatch]
  | cons m rest ih => simp [processBatch, ih, Nat.add_assoc]

theorem processBatch_failed_append (contentMax : Int) (send : SendFn)
    (xs ys : List Message) :
    (processBatch contentMax send (xs ++ ys)).failed =
      (processBatch contentMax send xs).failed + (processBatch contentMax send ys).failed := by
  induction xs with
  | nil => simp [processBatch]
  | cons m rest ih => simp [processBatch, ih, Nat.add_assoc]

theorem processBatch_events_append (contentMax : Int) (send : SendFn)
    (xs ys : List Message) :
    (processBatch contentMax send (xs ++ ys)).events =
      (processBatch contentMax send xs).events ++ (processBatch contentMax send ys).events := by
  induction xs with
  | nil => simp [processBatch]
  | cons m rest ih => simp [processBatch, ih]

/-- C1: with `ContentMax = N`, a message whose content has exactly `N`
code points proceeds to the webhook call (and on success is counted as
sent), while a message with at least `N + 1` code points is counted as
failed, triggers the `onFailed` hook with reason exactly
`"content exceeds N chars"`, and the webhook `Send` is never invoked for
that message. -/
theorem c1_processBatch_contentMax_boundary (N : Nat) (send : SendFn)
    (pre post : List Message) (m : Message) :
    (m.content.length = N →
      (msgStep ((N : Int)) send m).events.head? =
        some (SendEvent.call m.recipientPhone m.content) ∧
      (∀ rid, send m.recipientPhone m.content = Except.ok rid →
        msgStep ((N : Int)) send m =
          { sent := 1, failed := 0,
            events := [SendEvent.call m.recipientPhone m.content,
              SendEvent.onSent m.id rid] } ∧
        (processBatch ((N : Int)) send (pre ++ m :: post)).sent =
          (processBatch ((N : Int)) send pre).sent + 1 +
            (processBatch ((N : Int)) send post).sent)) ∧
    (N + 1 ≤ m.content.length →
      msgStep ((N : Int)) send m =
        { sent := 0, failed := 1,
          events := [SendEvent.onFailed m.id
            ("content exceeds " ++ toString N ++ " chars")] } ∧
      (∀ phone content,
        SendEvent.call phone content ∉ (msgStep ((N : Int)) send m).events) ∧
      (processBatch ((N : Int)) send (pre ++ m :: post)).failed =
        (processBatch ((N : Int)) send pre).failed + 1 +
          (processBatch ((N : Int)) send post).failed ∧
      SendEvent.onFailed m.id ("content exceeds " ++ toString N ++ " chars") ∈
        (processBatch ((N : Int)) send (pre ++ m :: post)).events) := by
  have hts : toString ((N : Int)) = toString N := rfl
  constructor
  · intro hlen
    have hnotgt : ¬ ((m.content.length : Int) > (N : Int)) := by
      simp [hlen]
    constructor
    · unfold msgStep
      rw [if_neg hnotgt]
      cases send m.recipientPhone m.content <;> simp
    · intro rid hok
      have hstep : msgStep ((N : Int)) send m =
          { sent := 1, failed := 0,
            events := [SendEvent.call m.recipientPhone m.content,
              SendEvent.onSent m.id rid] } := by
        unfold msgStep
        rw [if_neg hnotgt, hok]
      refine ⟨hstep, ?_⟩
      have h1 : processBatch ((N : Int)) send (pre ++ m :: post) =
          processBatch ((N : Int)) send (pre ++ [m] ++ post) := by
        simp
      rw [h1, processBatch_sent_append, processBatch_sent_append]
      have h2 : (processBatch ((N : Int)) send [m]).sent = 1 := by
        simp [processBatch, hstep]
      rw [h2]
  · intro hlen
    have hgt : (m.content.length : Int) > (N : Int) := by
      have : N < m.content.length := by omega
      exact_mod_cast this
    have hstep : msgStep ((N : Int)) send m =
        { sent := 0, failed := 1,
          events := [SendEvent.onFailed m.id
            ("content exceeds " ++ toString N ++ " chars")] } := by
      unfold msgStep
      rw [if_pos hgt, hts]
    refine ⟨hstep, ?_, ?_, ?_⟩
    · intro phone content hmem
      rw [hstep] at hmem
      simp at hmem
    · have h1 : processBatch ((N : Int)) send (pre ++ m :: post) =
          processBatch ((N : Int)) send (pre ++ [m] ++ post) := by
        simp
      rw [h1, processBatch_failed_append, processBatch_failed_append]
      have h2 : (processBatch ((N : Int)) send [m]).failed = 1 := by
        simp [processBatch, hstep]
      rw [h2]
    · have h1 : processBatch ((N : Int)) send (pre ++ m :: post) =
          processBatch ((N : Int)) send (pre ++ [m] ++ post) := by
        simp
      rw [h1, processBatch_events_append, processBatch_events_append]
      have h2 : (processBatch ((N : Int)) send [m]).events =
          [SendEvent.onFailed m.id ("content exceeds " ++ toString N ++ " chars")] := by
        simp [processBatch, hstep]
      rw [h2]
      simp

theorem goQuoteChar_plain (c : Char) (h : plainChar c) : goQuoteChar c = [c] := by
  obtain ⟨h1, h2, h3, h4⟩ := h
  have hn : c ≠ '\n' := by rintro rfl; exact absurd h1 (by decide)
  have ht : c ≠ '\t' := by rintro rfl; exact absurd h1 (by decide)
  have hr : c ≠ '\r' := by rintro rfl; exact absurd h1 (by decide)
  unfold goQuoteChar
  rw [if_neg h3, if_neg h4, if_neg hn, if_neg ht, if_neg hr, if_pos ⟨h1, h2⟩]

theorem flatMap_goQuoteChar_plain (l : List Char) (h : ∀ c ∈ l, plainChar c) :
    l.flatMap goQuoteChar = l := by
  induction l with
  | nil => simp
  | cons c cs ih =>
      have hc := h c (by simp)
      have hcs : ∀ x ∈ cs, plainChar x := fun x hx => h x (by simp [hx])
      simp [goQuoteChar_plain c hc, ih hcs]

theorem goQuote_plain (s : String) (h : ∀ c ∈ s.data, plainChar c) :
    (goQuote s).data = '"' :: (s.data ++ ['"']) := by
  unfold goQuote
  simp [flatMap_goQuoteChar_plain s.data h]

/-- C2: every non-202 response makes `Send` return an error (no remote
message id), and the error text carries the numeric status code and the
response body (the body in its `%q`-quoted form, hence verbatim whenever
it consists of plainly printable characters). -/
theorem c2_send_non202_error (decode : String → Except String SendResponse)
    (resp : HttpResponse) (h : resp.statusCode ≠ 202) :
    webhookHandleResponse decode resp =
      Except.error ("unexpected status code: " ++ toString resp.statusCode ++
        " body=" ++ goQuote resp.body) ∧
    (∀ e, webhookHandleResponse decode resp = Except.error e →
      (toString resp.statusCode).data <:+: e.data ∧
      (goQuote resp.body).data <:+: e.data ∧
      ((∀ c ∈ resp.body.data, plainChar c) → resp.body.data <:+: e.data)) := by
  have herr : webhookHandleResponse decode resp =
      Except.error ("unexpected status code: " ++ toString resp.statusCode ++
        " body=" ++ goQuote resp.body) := by
    unfold webhookHandleResponse
    rw [if_pos h]
  refine ⟨herr, ?_⟩
  intro e he
  rw [herr] at he
  have hee : e = "unexpected status code: " ++ toString resp.statusCode ++
      " body=" ++ goQuote resp.body := by
    injection he with h1
    exact h1.symm
  subst hee
  refine ⟨?_, ?_, ?_⟩
  · exact ⟨("unexpected status code: ").data,
      (" body=").data ++ (goQuote resp.body).data,
      by simp [String.data_append]⟩
  · exact ⟨("unexpected status code: ").data ++ (toString resp.statusCode).data ++
      (" body=").data, [], by simp [String.data_append]⟩
  · intro hp
    refine ⟨("unexpected status code: ").data ++ (toString resp.statusCode).data ++
      (" body=").data ++ ['"'], ['"'], ?_⟩
    simp [String.data_append, goQuote_plain resp.body hp]

/-- C2 witness: a `200 "nope"` response yields exactly the diagnostic
error of end-to-end scenario 3. -/
theorem c2_send_non202_error_witness :
    webhookHandleResponse decodeStub { statusCode := 200, body := "nope" } =
      Except.error "unexpected status code: 200 body=\x22nope\x22" ∧
    ("200").data <:+:
      ("unexpected status code: 200 body=\x22nope\x22").data := by
  have h := c2_send_non202_error decodeStub { statusCode := 200, body := "nope" }
    (by decide)
  refine ⟨h.1.trans rfl, ?_⟩
  have h2 := (h.2 _ h.1).1
  exact (by decide : ("200").data <:+:
    ("unexpected status code: 200 body=\x22nope\x22").data)

/-- C4: on a 202 response, a body that fails to decode yields an error;
a decoded body with empty (or absent) `messageId` yields an error
mentioning the missing `messageId`; otherwise `Send` returns exactly the
`messageId` field. -/
theorem c4_send_202_messageId (decode : String → Except String SendResponse)
    (resp : HttpResponse) (h202 : resp.statusCode = 202) :
    (∀ je, decode resp.body = Except.error je →
      webhookHandleResponse decode resp =
        Except.error ("failed to decode json: " ++ je ++ " body=" ++ goQuote resp.body)) ∧
    (∀ sr, decode resp.body = Except.ok sr → sr.messageId = "" →
      webhookHandleResponse decode resp =
        Except.error ("missing messageId in response body=" ++ goQuote resp.body) ∧
      ("missing messageId").data <:+:
        ("missing messageId in response body=" ++ goQuote resp.body).data) ∧
    (∀ sr, decode resp.body = Except.ok sr → sr.messageId ≠ "" →
      webhookHandleResponse decode resp = Except.ok sr.messageId) := by
  have hnot : ¬ (resp.statusCode ≠ 202) := by simp [h202]
  refine ⟨?_, ?_, ?_⟩
  · intro je hje
    unfold webhookHandleResponse
    rw [if_neg hnot, hje]
  · intro sr hsr hempty
    constructor
    · unfold webhookHandleResponse
      rw [if_neg hnot, hsr]
      simp [hempty]
    · refine ⟨[], (" in response body=").data ++ (goQuote resp.body).data, ?_⟩
      have hpre : ("missing messageId").data ++ (" in response body=").data =
          ("missing messageId in response body=").data := by decide
      simp [String.data_append, ← hpre]
  · intro sr hsr hne
    unfold webhookHandleResponse
    rw [if_neg hnot, hsr]
    simp [hne]

/-- C4 witness: with the stub decoder, a 202 body without `messageId`
fails with the missing-id diagnostic, a non-JSON body fails with the
decode diagnostic, and a well-formed body returns its `messageId`. -/
theorem c4_send_202_messageId_witness :
    webhookHandleResponse decodeStub
      { statusCode := 202, body := "\x7b\x22message\x22:\x22Accepted\x22\x7d" } =
      Except.error
        "missing messageId in response body=\x22\x7b\\\x22message\\\x22:\\\x22Accepted\\\x22\x7d\x22" ∧
    webhookHandleResponse decodeStub
      { statusCode := 202, body := "THIS IS NOT JSON" } =
      Except.error
        "failed to decode json: invalid character body=\x22THIS IS NOT JSON\x22" ∧
    webhookHandleResponse decodeStub
      { statusCode := 202,
        body := "\x7b\x22message\x22:\x22Accepted\x22,\x22messageId\x22:\x22abc-123\x22\x7d" } =
      Except.ok "abc-123" := by
  have h1 := ((c4_send_202_messageId decodeStub
      { statusCode := 202, body := "\x7b\x22message\x22:\x22Accepted\x22\x7d" } rfl).2.1
      { message := "Accepted", messageId := "" } rfl rfl).1
  have h2 := (c4_send_202_messageId decodeStub
      { statusCode := 202, body := "THIS IS NOT JSON" } rfl).1
      "invalid character" rfl
  have h3 := (c4_send_202_messageId decodeStub
      { statusCode := 202,
        body := "\x7b\x22message\x22:\x22Accepted\x22,\x22messageId\x22:\x22abc-123\x22\x7d" } rfl).2.2
      { message := "Accepted", messageId := "abc-123" } rfl (by decide)
  exact ⟨h1.trans rfl, h2.trans rfl, h3⟩

/-- C1 witness: at `ContentMax = 1`, a one-code-point message reaches the
webhook call and a two-code-point message fails with the exact reason. -/
theorem c1_processBatch_contentMax_boundary_witness :
    (msgStep ((1 : Int)) sendOkStub exampleShort).events.head? =
      some (SendEvent.call "+361" "a") ∧
    msgStep ((1 : Int)) sendOkStub exampleLong =
      { sent := 0, failed := 1,
        events := [SendEvent.onFailed 2 "content exceeds 1 chars"] } := by
  constructor
  · exact ((c1_processBatch_contentMax_boundary 1 sendOkStub [] [] exampleShort).1
      (by decide)).1
  · have h := ((c1_processBatch_contentMax_boundary 1 sendOkStub [] [] exampleLong).2
      (by decide)).1
    exact h

/-- C3: `ClaimPending` with a non-positive limit fails with the
invalid-argument error before any database action — no transaction is
begun, no row changes — and with a positive limit that error branch is
never taken. -/
theorem c3_claimPending_limit_guard (db : List Message) (now lim : Int) :
    (lim ≤ 0 →
      claimPending db now lim =
        { result := Except.error "limit must be > 0", db := db, events := [] }) ∧
    (0 < lim → ∃ msgs, (claimPending db now lim).result = Except.ok msgs) := by
  constructor
  · intro h
    unfold claimPending
    rw [if_pos h]
  · intro h
    unfold claimPending
    rw [if_neg (by omega)]
    dsimp only
    split
    · exact ⟨[], rfl⟩
    · exact ⟨_, rfl⟩

/-- C3 witness: on the example table, `ClaimPending(0)` errors without
events and `ClaimPending(1)` succeeds. -/
theorem c3_claimPending_limit_guard_witness :
    claimPending exampleDb 5 0 =
      { result := Except.error "limit must be > 0", db := exampleDb, events := [] } ∧
    ∃ msgs, (claimPending exampleDb 5 1).result = Except.ok msgs := by
  constructor
  · exact (c3_claimPending_limit_guard exampleDb 5 0).1 (by decide)
  · exact (c3_claimPending_limit_guard exampleDb 5 1).2 (by decide)

/-- C7: `ListSent(limit, offset)` runs the query with limit 50 whenever
`limit ≤ 0` and offset 0 whenever `offset < 0`; every returned row has
status `sent`, and the rows are ordered by `sent_at` descending. -/
theorem c7_listSent_defaults_and_order (db : List Message) (lim off : Int) :
    (lim ≤ 0 → listSent db lim off = querySent db 50 (if off < 0 then 0 else off)) ∧
    (off < 0 → listSent db lim off = querySent db (if lim ≤ 0 then 50 else lim) 0) ∧
    (∀ m ∈ listSent db lim off, m.status = Status.sent) ∧
    (listSent db lim off).Pairwise sentOrder := by
  refine ⟨?_, ?_, ?_, ?_⟩
  · intro h
    simp only [listSent]
    rw [if_pos h]
  · intro h
    simp only [listSent]
    rw [if_pos h]
  · intro m hm
    simp only [listSent, querySent] at hm
    have h1 := List.mem_of_mem_take hm
    have h2 := List.mem_of_mem_drop h1
    have h3 := (List.perm_insertionSort sentOrder _).subset h2
    have h4 := List.of_mem_filter h3
    simpa using h4
  · simp only [listSent, querySent]
    have hs : (List.insertionSort sentOrder
        (db.filter (fun m => m.status == Status.sent))).Pairwise sentOrder :=
      List.sorted_insertionSort sentOrder _
    have hsub : List.Sublist
        (((List.insertionSort sentOrder
          (db.filter (fun m => m.status == Status.sent))).drop
            (if off < 0 then 0 else off).toNat).take
              (if lim ≤ 0 then 50 else lim).toNat)
        (List.insertionSort sentOrder (db.filter (fun m => m.status == Status.sent))) :=
      (List.take_sublist _ _).trans (List.drop_sublist _ _)
    exact List.Pairwise.sublist hsub hs

/-- C7 witness: on the example table with `limit = -1`, `offset = -2`,
the query runs with limit 50 and offset 0, and returns the two sent rows
newest first. -/
theorem c7_listSent_defaults_and_order_witness :
    listSent exampleDb (-1) (-2) = querySent exampleDb 50 0 ∧
    ∀ m ∈ listSent exampleDb (-1) (-2), m.status = Status.sent := by
  constructor
  · have h := (c7_listSent_defaults_and_order exampleDb (-1) (-2)).1 (by decide)
    simpa using h
  · exact fun m hm => (c7_listSent_defaults_and_order exampleDb (-1) (-2)).2.2.1 m hm

/-- C5: scheduler lifecycle idempotence.  From idle, `Start(); Start()`
returns `(true, false)`, leaves `IsRunning()` true and spawns exactly one
worker, the second call having no side effects; from running,
`Stop(); Stop()` returns `(true, false)`, leaves `IsRunning()` false, the
second call having no side effects. -/
theorem c5_scheduler_lifecycle_idempotence (s : GoScheduler) :
    (s.running = false →
      (startSched s).1 = true ∧
      (startSched (startSched s).2).1 = false ∧
      (startSched (startSched s).2).2 = (startSched s).2 ∧
      isRunning (startSched (startSched s).2).2 = true ∧
      (startSched s).2.spawnCount = s.spawnCount + 1 ∧
      (startSched s).2.liveWorkers = s.liveWorkers + 1) ∧
    (s.running = true →
      (stopSched s).1 = true ∧
      (stopSched (stopSched s).2).1 = false ∧
      (stopSched (stopSched s).2).2 = (stopSched s).2 ∧
      isRunning (stopSched (stopSched s).2).2 = false) := by
  constructor
  · intro h
    simp [startSched, isRunning, h]
  · intro h
    simp [stopSched, isRunning, h]

/-- C5 witness: the idempotence equations at the freshly created
scheduler and at the state after one `Start`. -/
theorem c5_scheduler_lifecycle_idempotence_witness :
    (startSched schedInit).1 = true ∧
    (startSched (startSched schedInit).2).1 = false ∧
    (startSched schedInit).2.spawnCount = 1 ∧
    (stopSched (startSched schedInit).2).1 = true ∧
    (stopSched (stopSched (startSched schedInit).2).2).1 = false ∧
    isRunning (stopSched (startSched schedInit).2).2 = false := by
  have h1 := (c5_scheduler_lifecycle_idempotence schedInit).1 (by decide)
  have h2 := (c5_scheduler_lifecycle_idempotence (startSched schedInit).2).2 (by decide)
  exact ⟨h1.1, h1.2.1, h1.2.2.2.2.1, h2.1, h2.2.1, by decide⟩

theorem noWorker_trace_no_tick (t : List SchedLabel) :
    ∀ s s2 : SchedulerLTS, SchedTrace s t s2 →
      s.phase = WorkerPhase.noWorker → SchedLabel.startTrue ∉ t →
      SchedLabel.tickStart ∉ t := by
  induction t with
  | nil => intro s s2 _ _ _; simp
  | cons l t ih =>
      intro s s2 htr hphase hnostart
      have hlstart : l ≠ SchedLabel.startTrue := by
        intro he
        exact hnostart (by simp [he])
      have hnostart2 : SchedLabel.startTrue ∉ t := fun hmem =>
        hnostart (by simp [hmem])
      cases htr with
      | cons _ _ sm _ _ hstep htail =>
          have hltick : l ≠ SchedLabel.tickStart ∧ sm.phase = WorkerPhase.noWorker := by
            cases hstep with
            | startTrue h1 h2 => exact absurd rfl hlstart
            | startFalse h1 h2 => exact ⟨by simp, hphase⟩
            | stopFalse h1 h2 => exact ⟨by simp, hphase⟩
            | stopBegin c tk h1 h2 h3 => rw [hphase] at h3; cases h3
            | stopReturn h1 h2 => exact ⟨by simp, rfl⟩
            | tickStart c h1 => rw [hphase] at h1; cases h1
            | tickEnd c h1 => rw [hphase] at h1; cases h1
            | workerExit h1 => rw [hphase] at h1; cases h1
          have hrest := ih sm s2 htail hltick.2 hnostart2
          simp only [List.mem_cons, not_or]
          exact ⟨fun he => hltick.1 he.symm, hrest⟩

/-- C6: once a `Stop()` call has returned `true`, no tick-function
invocation occurs on any continuation of the execution until a
subsequent successful `Start()` — `Stop` only returns after the worker
goroutine (including any in-flight tick) has exited. -/
theorem c6_no_tick_after_stop (s s2 s3 : SchedulerLTS) (t : List SchedLabel)
    (hstop : SchedStep s SchedLabel.stopReturn s2)
    (htr : SchedTrace s2 t s3)
    (hnostart : SchedLabel.startTrue ∉ t) : SchedLabel.tickStart ∉ t := by
  have hphase : s2.phase = WorkerPhase.noWorker := by
    cases hstop with
    | stopReturn h1 h2 => rfl
  exact noWorker_trace_no_tick t s2 s3 htr hphase hnostart

/-- C6 witness: a concrete execution — `Stop` returns, then a redundant
`Stop` is called — contains no tick invocation. -/
theorem c6_no_tick_after_stop_witness :
    SchedLabel.tickStart ∉ [SchedLabel.stopFalse] := by
  have hstep : SchedStep
      { running := true, phase := WorkerPhase.noWorker, stopPending := true }
      SchedLabel.stopReturn
      { running := false, phase := WorkerPhase.noWorker, stopPending := false } :=
    SchedStep.stopReturn _ rfl rfl
  have htr : SchedTrace
      { running := false, phase := WorkerPhase.noWorker, stopPending := false }
      [SchedLabel.stopFalse]
      { running := false, phase := WorkerPhase.noWorker, stopPending := false } :=
    SchedTrace.cons _ _ _ _ _ (SchedStep.stopFalse _ rfl rfl) (SchedTrace.nil _)
  exact c6_no_tick_after_stop _ _ _ _ hstep htr (by decide)

/-- C8: in the `onSent` hook, `MarkSent` is always invoked before any
`StoreSent`, and a cache failure after a successful `MarkSent` leaves
the hook successful and the database exactly as `MarkSent` wrote it —
identical to a run whose cache write succeeds. -/
theorem c8_onSent_cache_nonfatal (markSentErr : Option String) (cacheEnabled : Bool)
    (storeErr : Option String) (now : Int) (db : List Message)
    (cache : List (String × String × Int)) (id : Int) (rid : String) :
    ((onSentHook markSentErr cacheEnabled storeErr now db cache id rid).events =
        [HookEvent.markSentCall id rid] ∨
      (onSentHook markSentErr cacheEnabled storeErr now db cache id rid).events =
        [HookEvent.markSentCall id rid, HookEvent.storeSentCall id rid]) ∧
    (∀ e, storeErr = some e →
      (onSentHook none cacheEnabled storeErr now db cache id rid).out =
        Except.ok () ∧
      (onSentHook none cacheEnabled storeErr now db cache id rid).db =
        markSentDb db now id rid ∧
      (onSentHook none cacheEnabled storeErr now db cache id rid).db =
        (onSentHook none cacheEnabled none now db cache id rid).db) := by
  constructor
  · cases markSentErr with
    | some e => exact Or.inl rfl
    | none =>
        cases cacheEnabled with
        | false => exact Or.inl rfl
        | true =>
            cases storeErr with
            | some e => exact Or.inr rfl
            | none => exact Or.inr rfl
  · intro e he
    subst he
    cases cacheEnabled with
    | false => exact ⟨rfl, rfl, rfl⟩
    | true => exact ⟨rfl, rfl, rfl⟩

/-- C8 witness: a failing cache write after a successful `MarkSent`
still yields a successful hook and the marked-sent table. -/
theorem c8_onSent_cache_nonfatal_witness :
    (onSentHook none true (some "redis down") 30 exampleDb [] 1 "r-1").out =
      Except.ok () ∧
    (onSentHook none true (some "redis down") 30 exampleDb [] 1 "r-1").db =
      markSentDb exampleDb 30 1 "r-1" := by
  have h := (c8_onSent_cache_nonfatal none true (some "redis down") 30 exampleDb []
    1 "r-1").2 "redis down" rfl
  exact ⟨h.1, h.2.1⟩

theorem mem_joinedText_infix (errs : List String) (x : String) (hx : x ∈ errs) :
    x.data <:+: (joinedText errs).data := by
  induction errs with
  | nil => cases hx
  | cons e rest ih =>
      cases rest with
      | nil =>
          have hxe : x = e := by simpa using hx
          subst hxe
          exact ⟨[], [], by simp [joinedText]⟩
      | cons e2 rest2 =>
          rcases List.mem_cons.mp hx with he | hm
          · subst he
            exact ⟨[], '\n' :: (joinedText (e2 :: rest2)).data,
              by simp [joinedText, String.data_append]⟩
          · obtain ⟨p, q, hpq⟩ := ih hm
            refine ⟨e.data ++ ['\n'] ++ p, q, ?_⟩
            simp only [joinedText, String.data_append]
            rw [← hpq]
            simp

/-- C9: with the required variables present, a non-integer value in any
of `CONTENT_MAX`, `SCHED_INTERVAL_SECONDS`, `SCHED_BATCH_SIZE` makes
`LoadAll` fail with an error naming that variable; a value resolving
(after defaulting) to `≤ 0` makes validation fail with an error naming
that variable; with all three unset `LoadAll` succeeds with defaults
160, 120 seconds and 2. -/
theorem c9_loadAll_validation (env : Env)
    (hp : env "POSTGRES_URL" ≠ "") (hw : env "WEBHOOK_URL" ≠ "") :
    (env "CONTENT_MAX" ≠ "" → atoi (env "CONTENT_MAX") = none →
      loadAll env = Except.error
        ("invalid int for env CONTENT_MAX: " ++ goQuote (env "CONTENT_MAX")) ∧
      ("CONTENT_MAX").data <:+:
        ("invalid int for env CONTENT_MAX: " ++ goQuote (env "CONTENT_MAX")).data) ∧
    (∀ c, getEnvInt env "CONTENT_MAX" 160 = Except.ok c →
      env "SCHED_INTERVAL_SECONDS" ≠ "" → atoi (env "SCHED_INTERVAL_SECONDS") = none →
      loadAll env = Except.error
        ("invalid int for env SCHED_INTERVAL_SECONDS: " ++
          goQuote (env "SCHED_INTERVAL_SECONDS")) ∧
      ("SCHED_INTERVAL_SECONDS").data <:+:
        ("invalid int for env SCHED_INTERVAL_SECONDS: " ++
          goQuote (env "SCHED_INTERVAL_SECONDS")).data) ∧
    (∀ c i, getEnvInt env "CONTENT_MAX" 160 = Except.ok c →
      getEnvInt env "SCHED_INTERVAL_SECONDS" 120 = Except.ok i →
      env "SCHED_BATCH_SIZE" ≠ "" → atoi (env "SCHED_BATCH_SIZE") = none →
      loadAll env = Except.error
        ("invalid int for env SCHED_BATCH_SIZE: " ++
          goQuote (env "SCHED_BATCH_SIZE")) ∧
      ("SCHED_BATCH_SIZE").data <:+:
        ("invalid int for env SCHED_BATCH_SIZE: " ++
          goQuote (env "SCHED_BATCH_SIZE")).data) ∧
    (∀ c i b r, getEnvInt env "CONTENT_MAX" 160 = Except.ok c →
      getEnvInt env "SCHED_INTERVAL_SECONDS" 120 = Except.ok i →
      getEnvInt env "SCHED_BATCH_SIZE" 2 = Except.ok b →
      loadRedisConfig env = Except.ok r →
      (c ≤ 0 → ∃ e, loadAll env = Except.error e ∧
        ("CONTENT_MAX must be > 0").data <:+: e.data) ∧
      (i ≤ 0 → ∃ e, loadAll env = Except.error e ∧
        ("SCHED_INTERVAL_SECONDS must be > 0").data <:+: e.data) ∧
      (b ≤ 0 → ∃ e, loadAll env = Except.error e ∧
        ("SCHED_BATCH_SIZE must be > 0").data <:+: e.data)) ∧
    (env "CONTENT_MAX" = "" → env "SCHED_INTERVAL_SECONDS" = "" →
      env "SCHED_BATCH_SIZE" = "" →
      ∀ r, loadRedisConfig env = Except.ok r →
      ∃ cfg, loadAll env = Except.ok cfg ∧ cfg.webhook.contentMax = 160 ∧
        cfg.scheduler.interval = 120 * 1000000000 ∧ cfg.scheduler.batchSize = 2) := by
  have h1 : requireEnv env "POSTGRES_URL" = Except.ok (env "POSTGRES_URL") := by
    unfold requireEnv
    rw [if_neg hp]
  have h2 : requireEnv env "WEBHOOK_URL" = Except.ok (env "WEBHOOK_URL") := by
    unfold requireEnv
    rw [if_neg hw]
  refine ⟨?_, ?_, ?_, ?_, ?_⟩
  · intro hne hbad
    have hce : getEnvInt env "CONTENT_MAX" 160 = Except.error
        ("invalid int for env CONTENT_MAX: " ++ goQuote (env "CONTENT_MAX")) := by
      unfold getEnvInt
      rw [if_neg hne, hbad]
      rfl
    constructor
    · unfold loadAll
      rw [h1, h2, hce]
    · exact ⟨("invalid int for env ").data,
        (": ").data ++ (goQuote (env "CONTENT_MAX")).data,
        by simp [String.data_append]⟩
  · intro c hc hne hbad
    have hie : getEnvInt env "SCHED_INTERVAL_SECONDS" 120 = Except.error
        ("invalid int for env SCHED_INTERVAL_SECONDS: " ++
          goQuote (env "SCHED_INTERVAL_SECONDS")) := by
      unfold getEnvInt
      rw [if_neg hne, hbad]
      rfl
    constructor
    · unfold loadAll
      rw [h1, h2, hc, hie]
    · exact ⟨("invalid int for env ").data,
        (": ").data ++ (goQuote (env "SCHED_INTERVAL_SECONDS")).data,
        by simp [String.data_append]⟩
  · intro c i hc hi hne hbad
    have hbe : getEnvInt env "SCHED_BATCH_SIZE" 2 = Except.error
        ("invalid int for env SCHED_BATCH_SIZE: " ++
          goQuote (env "SCHED_BATCH_SIZE")) := by
      unfold getEnvInt
      rw [if_neg hne, hbad]
      rfl
    constructor
    · unfold loadAll
      rw [h1, h2, hc, hi, hbe]
    · exact ⟨("invalid int for env ").data,
        (": ").data ++ (goQuote (env "SCHED_BATCH_SIZE")).data,
        by simp [String.data_append]⟩
  · intro c i b r hc hi hb hr
    have hmain : ∀ x : String, x ∈ validate (mkConfig env r c i b) →
        ∃ e, loadAll env = Except.error e ∧ x.data <:+: e.data := by
      intro x hx
      have hnemp : ¬ (validate (mkConfig env r c i b)).isEmpty = true := by
        intro hemp
        rw [List.isEmpty_iff] at hemp
        rw [hemp] at hx
        cases hx
      have hjoin : joinErrors (validate (mkConfig env r c i b)) =
          some (joinedText (validate (mkConfig env r c i b))) := by
        unfold joinErrors
        rw [if_neg hnemp]
      refine ⟨joinedText (validate (mkConfig env r c i b)), ?_,
        mem_joinedText_infix _ x hx⟩
      unfold loadAll
      rw [h1, h2, hc, hi, hb, hr]
      change (match joinErrors (validate (mkConfig env r c i b)) with
        | some e => Except.error e
        | none => Except.ok (mkConfig env r c i b)) = _
      rw [hjoin]
    refine ⟨?_, ?_, ?_⟩
    · intro hcle
      refine hmain "CONTENT_MAX must be > 0" ?_
      unfold validate
      simp [mkConfig, hcle]
    · intro hile
      refine hmain "SCHED_INTERVAL_SECONDS must be > 0" ?_
      have him : i * 1000000000 ≤ 0 := by omega
      unfold validate
      simp [mkConfig, him]
    · intro hble
      refine hmain "SCHED_BATCH_SIZE must be > 0" ?_
      unfold validate
      simp [mkConfig, hble]
  · intro hcm hiv hbs r hr
    have hc : getEnvInt env "CONTENT_MAX" 160 = Except.ok 160 := by
      unfold getEnvInt
      rw [if_pos hcm]
    have hi : getEnvInt env "SCHED_INTERVAL_SECONDS" 120 = Except.ok 120 := by
      unfold getEnvInt
      rw [if_pos hiv]
    have hb : getEnvInt env "SCHED_BATCH_SIZE" 2 = Except.ok 2 := by
      unfold getEnvInt
      rw [if_pos hbs]
    refine ⟨{ serverAddress := getEnvDef env "SERVER_ADDRESS" ":8080",
              postgresUrl := env "POSTGRES_URL", redis := r,
              scheduler := { interval := 120 * 1000000000, batchSize := 2 },
              webhook := { url := env "WEBHOOK_URL", contentMax := 160 } },
      ?_, rfl, rfl, rfl⟩
    unfold loadAll
    rw [h1, h2, hc, hi, hb, hr]
    rfl

/-- C9 witness: a non-integer `CONTENT_MAX` fails naming the variable,
`CONTENT_MAX=0` fails validation naming the variable, and with all three
unset the defaults 160 / 120 s / 2 load successfully. -/
theorem c9_loadAll_validation_witness :
    loadAll envInvalidInt =
      Except.error "invalid int for env CONTENT_MAX: \x22abc\x22" ∧
    (∃ e, loadAll envNonPositive = Except.error e ∧
      ("CONTENT_MAX must be > 0").data <:+: e.data) ∧
    (∃ cfg, loadAll envDefaults = Except.ok cfg ∧ cfg.webhook.contentMax = 160 ∧
      cfg.scheduler.interval = 120 * 1000000000 ∧ cfg.scheduler.batchSize = 2) := by
  refine ⟨?_, ?_, ?_⟩
  · have h := (c9_loadAll_validation envInvalidInt (by decide) (by decide)).1
      (by decide) rfl
    exact h.1.trans rfl
  · exact ((c9_loadAll_validation envNonPositive (by decide) (by decide)).2.2.2.1
      0 120 2 { enabled := false, address := "", password := "", db := 0, ttl := 0 }
      rfl rfl rfl rfl).1 (by decide)
  · exact (c9_loadAll_validation envDefaults (by decide) (by decide)).2.2.2.2
      rfl rfl rfl
      { enabled := false, address := "", password := "", db := 0, ttl := 0 } rfl

/-- C10: the handler's `parseInt` passes every parsable query value
through unchanged (negatives included) and falls back to the default
only for empty or unparsable input; a parsable negative limit such as
`-5` therefore reaches `ListSent`, is clamped there, and the request
answers 200 with the limit-50 / offset-0 query. -/
theorem c10_handler_negative_passthrough (db : List Message) (raw : String)
    (v d : Int) :
    (atoi raw = some v → parseIntQuery raw d = v) ∧
    (raw ≠ "" → atoi raw = none → parseIntQuery raw d = d) ∧
    parseIntQuery "" d = d ∧
    (∀ w, atoi w = some (-5) →
      listSentHandler none db w "" = (200, Except.ok (querySent db 50 0))) := by
  refine ⟨?_, ?_, rfl, ?_⟩
  · intro hv
    have hne : raw ≠ "" := by
      intro he
      subst he
      rw [(rfl : atoi "" = none)] at hv
      cases hv
    unfold parseIntQuery
    rw [if_neg hne, hv]
  · intro hne hn
    unfold parseIntQuery
    rw [if_neg hne, hn]
  · intro w hw
    have hwne : w ≠ "" := by
      intro he
      subst he
      rw [(rfl : atoi "" = none)] at hw
      cases hw
    have hlim : parseIntQuery w 50 = -5 := by
      unfold parseIntQuery
      rw [if_neg hwne, hw]
    have hoff : parseIntQuery "" 0 = 0 := rfl
    have hred : listSentHandler none db w "" =
        (200, Except.ok (listSent db (parseIntQuery w 50) (parseIntQuery "" 0))) := rfl
    have hls : listSent db (-5) 0 = querySent db 50 0 := rfl
    rw [hred, hlim, hoff, hls]

/-- C10 witness: `limit=-5` with empty offset yields a 200 response and
the limit-50 / offset-0 query on the example table. -/
theorem c10_handler_negative_passthrough_witness :
    parseIntQuery "-5" 50 = -5 ∧
    listSentHandler none exampleDb "-5" "" =
      (200, Except.ok (querySent exampleDb 50 0)) := by
  have h := c10_handler_negative_passthrough exampleDb "-5" (-5) 50
  exact ⟨h.1 (by decide), h.2.2.2 "-5" (by decide)⟩

end AutoMsg
